import Mathlib

/-!
Shallow embedding of the Q-learning Flappy Bird agent (`js/index.js`) and its
persistence glue (`js/config.js`).

Modelling conventions:
* JS numbers are modelled as rationals (`ℚ`); the game's coordinates, which
  are integer-valued throughout, as `ℤ`.
* `Math.random()` draws are passed in explicitly as rationals in `[0, 1)`;
  probability statements are phrased as the Lebesgue measure (on `ℝ`) of the
  set of draws taking a branch, the predicates being shared between the
  executable `ℚ` instance and the measure-theoretic `ℝ` instance.
* The JS object `Q_table` is an association list in property-insertion order,
  keyed by the config array `[diffY, speedY, tubeX, action]` (JS coerces it to
  a comma-separated string when indexing; the coercion is injective on such
  arrays, so the array itself serves as the key).
* `localStorage` is an optional stored document; `JSON.parse` on a valid
  document yields its value with duplicate object keys collapsed by
  last-write-wins assignment, and raises a syntax error on a malformed one.
-/

namespace FlappyQ

/-- JS `Math.trunc` (round toward zero), as used by the JS `%` operator. -/
def jsTrunc {α : Type} [LinearOrderedField α] [FloorRing α] (x : α) : ℤ :=
  if 0 ≤ x then ⌊x⌋ else ⌈x⌉

/-- JS `%` on numbers: `x % y = x - y * trunc(x / y)` for finite inputs. -/
def jsFmod {α : Type} [LinearOrderedField α] [FloorRing α] (x y : α) : α :=
  x - y * (jsTrunc (x / y) : α)

/-- JS `Math.round`: `⌊x + 0.5⌋` (half away from zero on the inputs used,
which rounds half up). -/
def jsRound (x : ℚ) : ℤ := ⌊x + 1/2⌋

/-- The discretized environment state, the object
`{speedY, tubeX, diffY}` built in `nextStep`. -/
structure BirdState where
  speedY : ℤ
  tubeX : ℤ
  diffY : ℤ
deriving DecidableEq

instance : Inhabited BirdState := ⟨⟨0, 0, 0⟩⟩

/-- `actionSet.STAY`. -/
def STAY : ℕ := 0

/-- `actionSet.JUMP`. -/
def JUMP : ℕ := 1

/-- Learning rate (`var alpha = 0.1`). -/
def alpha : ℚ := 1/10

/-- Discount factor (`var gamma = 0.8`). -/
def gamma : ℚ := 4/5

/-- The JS property key `var config = [state.diffY, state.speedY,
state.tubeX, action]`.  (JS coerces this array to the comma-separated string
of its integer entries when indexing `Q_table`; that coercion is injective
on such arrays, so the key is modelled by the array itself.) -/
def keyOf (s : BirdState) (a : ℕ) : List ℤ :=
  [s.diffY, s.speedY, s.tubeX, (a : ℤ)]

/-- The `Q_table` object: keys in insertion order, each key at most once. -/
abbrev QTable := List (List ℤ × ℚ)

/-- Property lookup with the `getQ` default: absent keys score 0. -/
def lookupQ : QTable → List ℤ → ℚ
  | [], _ => 0
  | (k', v) :: rest, k => if k' = k then v else lookupQ rest k

/-- `getQ(state, action)`. -/
def getQ (tbl : QTable) (s : BirdState) (a : ℕ) : ℚ :=
  lookupQ tbl (keyOf s a)

/-- The mutation inside `setQ`: create the key at 0 if absent (appending it,
per JS property order), then `+=` the reward. -/
def setKey : QTable → List ℤ → ℚ → QTable
  | [], k, d => [(k, d)]
  | (k', v) :: rest, k, d =>
      if k' = k then (k', v + d) :: rest else (k', v) :: setKey rest k d

/-- `setQ(state, action, reward)`. -/
def setQ (tbl : QTable) (s : BirdState) (a : ℕ) (reward : ℚ) : QTable :=
  setKey tbl (keyOf s a) reward

/-- One `frameBuffer` entry, the object `{env, action}`. -/
structure Frame where
  env : BirdState
  action : ℕ
deriving DecidableEq

instance : Inhabited Frame := ⟨⟨default, 0⟩⟩

/-- Tolerable deviation from the ideal passage position (`var theta = 1`). -/
def theta : ℚ := 1

/-- Minimum number of frames kept in the buffer (`var minFramSize = 5`). -/
def minFramSize : ℕ := 5

/-- The reward credited to a visited `(state, action)` pair in
`rewardTheBird`: `rewardForState = reward - |state.diffY|`, then on a failed
episode the asymmetric shaping (`diffY >= theta` and a jump, or
`diffY <= -theta` and a stay, negate it; otherwise it becomes `+0.5`). -/
def shapeReward (wasSuccessful : Bool) (reward : ℚ) (s : BirdState) (a : ℕ) : ℚ :=
  let rewardForState := reward - |(s.diffY : ℚ)|
  if wasSuccessful then rewardForState
  else if (s.diffY : ℚ) ≥ theta ∧ a = JUMP then -rewardForState
  else if (s.diffY : ℚ) ≤ -theta ∧ a = STAY then -rewardForState
  else 1/2

/-- One iteration of the backward walk of `rewardTheBird`, at buffer index
`i`: the temporal-difference update
`setQ(state, action, alpha*(rewardForState + gamma*optimalFutureValue - getQ(state, action)))`
where the future state is the entry at index `i + 1`. -/
def creditStep (reward : ℚ) (wasSuccessful : Bool) (buf : List Frame) (i : ℕ)
    (tbl : QTable) : QTable :=
  let config := buf.getD i default
  let futureState := (buf.getD (i + 1) default).env
  let optimalFutureValue := max (getQ tbl futureState STAY) (getQ tbl futureState JUMP)
  let updateValue := alpha * (shapeReward wasSuccessful reward config.env config.action
      + gamma * optimalFutureValue - getQ tbl config.env config.action)
  setQ tbl config.env config.action updateValue

/-- The `for` loop of `rewardTheBird`: the index walks down from its start
value while the `frameSize` budget counts down; both the index reaching the
buffer start and the budget reaching 0 stop the walk. -/
def creditLoop (reward : ℚ) (wasSuccessful : Bool) (buf : List Frame) :
    ℕ → ℕ → QTable → QTable
  | _, 0, tbl => tbl
  | 0, _ + 1, tbl => creditStep reward wasSuccessful buf 0 tbl
  | i + 1, frameSize + 1, tbl =>
      creditLoop reward wasSuccessful buf i frameSize
        (creditStep reward wasSuccessful buf (i + 1) tbl)

/-- `rewardTheBird(reward, wasSuccessful)` acting on the globals
`(Q_table, frameBuffer, episodeFrameCount)`.  The source loop starts at index
`frameBuffer.length - 2` with guard `i >= 0`; that guard is rendered here as
the `2 ≤ buf.length` test enabling the loop at all.  Afterwards the buffer is
sliced from `max(length - minFramSize, 1)` and the episode frame count reset
to 0. -/
def rewardTheBird (tbl : QTable) (buf : List Frame) (episodeFrameCount : ℕ)
    (reward : ℚ) (wasSuccessful : Bool) : QTable × List Frame × ℕ :=
  let frameSize := max minFramSize episodeFrameCount
  let tbl' := if 2 ≤ buf.length then
      creditLoop reward wasSuccessful buf (buf.length - 2) frameSize tbl
    else tbl
  (tbl', buf.drop (max (buf.length - minFramSize) 1), 0)

/-- `getAction(state)`, with the two `Math.random()` draws made explicit:
`r1` feeds the exploration test `Math.ceil(Math.random()*100000) % 90001 == 0`,
and `r2` feeds whichever second draw the taken branch performs
(`(Math.random()*100) % 4 == 0` in the exploration branch, the float
modulus, and `Math.ceil(Math.random()*100) % 25 == 0` in the tie break). -/
def getAction (tbl : QTable) (s : BirdState) (r1 r2 : ℚ) : ℕ :=
  if ⌈r1 * 100000⌉ % 90001 = 0 then
    if jsFmod (r2 * 100) 4 = 0 then JUMP else STAY
  else
    let rewardForStay := getQ tbl s STAY
    let rewardForJump := getQ tbl s JUMP
    if rewardForStay > rewardForJump then STAY
    else if rewardForStay < rewardForJump then JUMP
    else if ⌈r2 * 100⌉ % 25 = 0 then JUMP else STAY

/-- Game-state constants from `index.js`. -/
def HOME : ℕ := 0

/-- The active-play game state. -/
def GAME : ℕ := 1

/-- The slice of the global game state that `nextStep` reads or writes.
The global `targetTube`, an alias of the selected tube that only the
renderer reads back, is represented by the derived selectors `targetTubeX`
and `targetTubeY` below. -/
structure GameS where
  gameState : ℕ
  tube0x : ℤ
  tube0y : ℤ
  tube1x : ℤ
  tube1y : ℤ
  birdX : ℤ
  birdY : ℤ
  birdYSpeed : ℚ
  targetTubeIndex : ℤ
  frameBuffer : List Frame
  episodeFrameCount : ℕ
  qtable : QTable
deriving DecidableEq

/-- The tube-selection test of `nextStep`:
`birdX < tubes[0].x + 3 && (tubes[0].x < tubes[1].x || tubes[1].x + 3 < birdX)`. -/
def tubeChoiceIsZero (g : GameS) : Prop :=
  g.birdX < g.tube0x + 3 ∧ (g.tube0x < g.tube1x ∨ g.tube1x + 3 < g.birdX)

instance (g : GameS) : Decidable (tubeChoiceIsZero g) := by
  unfold tubeChoiceIsZero; infer_instance

/-- The x-coordinate of the tube `nextStep` targets this tick. -/
def targetTubeX (g : GameS) : ℤ :=
  if tubeChoiceIsZero g then g.tube0x else g.tube1x

/-- The y-coordinate of the tube `nextStep` targets this tick. -/
def targetTubeY (g : GameS) : ℤ :=
  if tubeChoiceIsZero g then g.tube0y else g.tube1y

/-- The value `targetTubeIndex` is set to this tick. -/
def newTargetIndex (g : GameS) : ℤ :=
  if tubeChoiceIsZero g then 0 else 1

/-- Whether this tick's tube selection flips `targetTubeIndex` across an
episode boundary, triggering `rewardTheBird(5, true)`. -/
def boundaryFires (g : GameS) : Prop :=
  if tubeChoiceIsZero g then g.targetTubeIndex = 1 else g.targetTubeIndex = 0

instance (g : GameS) : Decidable (boundaryFires g) := by
  unfold boundaryFires; split <;> infer_instance

/-- `nextStep()`, the per-tick agent entry point, with the `Math.random()`
draws a `getAction` call would consume passed explicitly. -/
def nextStep (g : GameS) (r1 r2 : ℚ) : GameS :=
  if g.gameState ≠ GAME then g
  else
    let rewarded := if boundaryFires g then
        rewardTheBird g.qtable g.frameBuffer g.episodeFrameCount 5 true
      else (g.qtable, g.frameBuffer, g.episodeFrameCount)
    let g' : GameS := { g with
      qtable := rewarded.1
      frameBuffer := rewarded.2.1
      episodeFrameCount := rewarded.2.2
      targetTubeIndex := newTargetIndex g }
    if targetTubeX g - g.birdX > 28 then g'
    else
      let state : BirdState :=
        { speedY := jsRound (g.birdYSpeed * 100)
          tubeX := targetTubeX g
          diffY := (targetTubeY g + 17 + 6) - (g.birdY + 1) }
      let actionToBeTaken := getAction g'.qtable state r1 r2
      let g'' : GameS := { g' with
        frameBuffer := g'.frameBuffer ++ [⟨state, actionToBeTaken⟩]
        episodeFrameCount := g'.episodeFrameCount + 1 }
      if actionToBeTaken = JUMP then { g'' with birdYSpeed := -(7/5) } else g''

/-! ### Persistence (`js/config.js`)

`saveModel` stores `JSON.stringify(Q_table)` under the key
`"flappybird-qtable"`; `loadModel` re-parses it into the `Q_table` global.
The repository carries two copies of `loadModel`: one guards the parse with a
`getItem(...) != null` test, the other parses unconditionally (in which case
`JSON.parse(null)` coerces its argument to the string `"null"` and returns
the JSON `null` value). -/

/-- A JSON value, as far as the persisted artifacts need: the stored table is
a flat object whose members are numbers. -/
inductive Jv where
  | null : Jv
  | num (q : ℚ) : Jv
  | obj (entries : List (List ℤ × Jv)) : Jv

/-- JS property assignment `o[k] = v`: overwrite in place if the key exists,
else append it. -/
def jsAssign : List (List ℤ × Jv) → List ℤ → Jv → List (List ℤ × Jv)
  | [], k, v => [(k, v)]
  | (k', v') :: rest, k, v =>
      if k' = k then (k', v) :: rest else (k', v') :: jsAssign rest k v

/-- Building a JS object from the member list of a JSON object text:
members are assigned in order, so a duplicated key keeps its first position
and its last value. -/
def objFromEntries (es : List (List ℤ × Jv)) : List (List ℤ × Jv) :=
  es.foldl (fun acc kv => jsAssign acc kv.1 kv.2) []

/-- What `JSON.parse` makes of a syntactically valid document: object member
lists are rebuilt by in-order assignment.  The documents reaching this model
are flat (number members), so only the top level needs rebuilding. -/
def normalizeTop : Jv → Jv
  | .obj es => .obj (objFromEntries es)
  | j => j

/-- A document held in `localStorage`: either valid JSON text with content
`j`, or malformed text (on which `JSON.parse` raises a `SyntaxError`). -/
inductive StoredDoc where
  | valid (j : Jv) : StoredDoc
  | malformed : StoredDoc

/-- The error `JSON.parse` raises on malformed text. -/
inductive JsErr where
  | syntaxError : JsErr
deriving DecidableEq

/-- `JSON.stringify(Q_table)`: the table serializes to a flat JSON object
with one number member per key, in property order. -/
def tableToJson (tbl : QTable) : Jv :=
  .obj (tbl.map fun kv => (kv.1, .num kv.2))

/-- `saveModel()`: store `JSON.stringify(Q_table)`. -/
def saveModel (tbl : QTable) : StoredDoc :=
  .valid (tableToJson tbl)

/-- `JSON.parse` applied directly to `localStorage.getItem(...)`: a missing
item is `null`, which is coerced to the string `"null"` and parses to the
JSON `null` value; malformed text raises. -/
def jsonParseOfItem : Option StoredDoc → Except JsErr Jv
  | none => .ok .null
  | some (.valid j) => .ok (normalizeTop j)
  | some .malformed => .error .syntaxError

/-- The observable outcome of a `loadModel` call: the final value of the
`Q_table` global (an arbitrary JS value after a load), the alert shown, and
the exception that escaped, if any. -/
structure LoadResult where
  qtable : Jv
  alertMsg : Option String
  err : Option JsErr

/-- The guarded `loadModel` (the copy with the `getItem(...) != null` check):
a missing item only alerts; a present item is parsed and, on success,
replaces `Q_table`.  A parse error escapes before the assignment, leaving
`Q_table` untouched. -/
def loadModel (storage : Option StoredDoc) (qtable : Jv) : LoadResult :=
  match storage with
  | none => ⟨qtable, some "No saved model found in local storage", none⟩
  | some doc =>
      match jsonParseOfItem (some doc) with
      | .ok j => ⟨j, some "Model was loaded successfully!", none⟩
      | .error e => ⟨qtable, none, some e⟩

/-- The unguarded `loadModel` (the copy without the null check):
`Q_table = JSON.parse(localStorage.getItem(...))` runs on whatever the item
is, including the missing case. -/
def loadModelUnguarded (storage : Option StoredDoc) (qtable : Jv) : LoadResult :=
  match jsonParseOfItem storage with
  | .ok j => ⟨j, some "Model was loaded successfully!", none⟩
  | .error e => ⟨qtable, none, some e⟩

/-- Reading `Q_table[config]` after a load, when `Q_table` is an arbitrary
JS value: a number member gives its value, anything else scores 0 through
the `config in Q_table` guard of `getQ`. -/
def jvFindNum : List (List ℤ × Jv) → List ℤ → ℚ
  | [], _ => 0
  | (k', v) :: rest, k =>
      if k' = k then (match v with | .num q => q | _ => 0) else jvFindNum rest k

/-- `getQ` evaluated against a loaded (arbitrary) `Q_table` value. -/
def getQLoaded (j : Jv) (s : BirdState) (a : ℕ) : ℚ :=
  match j with
  | .obj es => jvFindNum es (keyOf s a)
  | _ => 0

/-! ### Spec-side comparison definitions

These definitions follow the wording of the specification (and of the claims
under check), to be compared with the source-derived definitions above. -/

/-- The buffer indices the specified backward walk visits: starting at the
second-most-recent entry (`length - 2`) and stepping backward, for at most
`W` steps, never passing the buffer start. -/
def creditWalkIndices (len W : ℕ) : List ℕ :=
  (List.range (min W (len - 1))).map (fun k => len - 2 - k)

/-- The specified credit-assignment walk: fold the per-visit
temporal-difference update over the visited indices. -/
def walkSpec (reward : ℚ) (wasSuccessful : Bool) (buf : List Frame) (W : ℕ)
    (tbl : QTable) : QTable :=
  (creditWalkIndices buf.length W).foldl
    (fun t i => creditStep reward wasSuccessful buf i t) tbl

/-- The failure shaping exactly as the claim states it: negation only when
the deviation exceeds the tolerance *strictly* (`> θ` above, `< -θ` below);
otherwise the fixed nudge `+0.5`.  Success leaves the reward unshaped. -/
def shapeRewardClaim (wasSuccessful : Bool) (reward : ℚ) (s : BirdState) (a : ℕ) : ℚ :=
  let rewardForState := reward - |(s.diffY : ℚ)|
  if wasSuccessful then rewardForState
  else if (s.diffY : ℚ) > theta ∧ a = JUMP then -rewardForState
  else if (s.diffY : ℚ) < -theta ∧ a = STAY then -rewardForState
  else 1/2

/-- One walk step under the alternative reading of the claim under check:
the `optimalFuture` term is read from `q0`, the table as it stood when the
call began, instead of from the running table. -/
def creditStepStale (q0 : QTable) (reward : ℚ) (wasSuccessful : Bool)
    (buf : List Frame) (i : ℕ) (tbl : QTable) : QTable :=
  let config := buf.getD i default
  let futureState := (buf.getD (i + 1) default).env
  let optimalFutureValue := max (getQ q0 futureState STAY) (getQ q0 futureState JUMP)
  let updateValue := alpha * (shapeReward wasSuccessful reward config.env config.action
      + gamma * optimalFutureValue - getQ tbl config.env config.action)
  setQ tbl config.env config.action updateValue

/-- The whole walk under the stale-read alternative, starting from table
`q0`. -/
def walkStale (reward : ℚ) (wasSuccessful : Bool) (buf : List Frame) (W : ℕ)
    (q0 : QTable) : QTable :=
  (creditWalkIndices buf.length W).foldl
    (fun t i => creditStepStale q0 reward wasSuccessful buf i t) q0

/-! ### Random-branch hit sets

The set of `Math.random()` draws (idealized as uniform on `[0, 1) ⊆ ℝ`) on
which each randomized branch of `getAction` fires; the defining conditions
are the ones `getAction` tests, at `ℝ` instead of `ℚ`. -/

/-- Draws on which the exploration override fires:
`Math.ceil(r * 100000) % 90001 == 0`. -/
def exploreFireSet : Set ℝ :=
  {r : ℝ | r ∈ Set.Ico (0 : ℝ) 1 ∧ ⌈r * 100000⌉ % 90001 = 0}

/-- Draws on which the exploration branch's jump test
`(r * 100) % 4 == 0` (a float modulus) holds. -/
def exploreJumpSet : Set ℝ :=
  {r : ℝ | r ∈ Set.Ico (0 : ℝ) 1 ∧ jsFmod (r * 100) 4 = 0}

/-- Draws on which the exploration branch stays. -/
def exploreStaySet : Set ℝ :=
  {r : ℝ | r ∈ Set.Ico (0 : ℝ) 1 ∧ ¬jsFmod (r * 100) 4 = 0}

/-- Draws on which the tie break `Math.ceil(r * 100) % 25 == 0` jumps. -/
def tieJumpSet : Set ℝ :=
  {r : ℝ | r ∈ Set.Ico (0 : ℝ) 1 ∧ ⌈r * 100⌉ % 25 = 0}

/-- Draws on which the tie break stays. -/
def tieStaySet : Set ℝ :=
  {r : ℝ | r ∈ Set.Ico (0 : ℝ) 1 ∧ ¬⌈r * 100⌉ % 25 = 0}

/-! ### Helper lemmas -/

/-- Reading back the key just written: `setQ` adds its increment. -/
theorem lookupQ_setKey_self (tbl : QTable) (k : List ℤ) (d : ℚ) :
    lookupQ (setKey tbl k d) k = lookupQ tbl k + d := by
  induction tbl with
  | nil => simp [setKey, lookupQ]
  | cons hd rest ih =>
    obtain ⟨k', v⟩ := hd
    by_cases hk : k' = k
    · simp [setKey, lookupQ, hk]
    · simp [setKey, lookupQ, hk, ih]

/-- `setQ` leaves every other key unchanged. -/
theorem lookupQ_setKey_ne (tbl : QTable) (k k' : List ℤ) (d : ℚ) (h : k ≠ k') :
    lookupQ (setKey tbl k d) k' = lookupQ tbl k' := by
  induction tbl with
  | nil => simp [setKey, lookupQ, h]
  | cons hd rest ih =>
    obtain ⟨k₀, v⟩ := hd
    by_cases hk : k₀ = k
    · subst hk; simp [setKey, lookupQ, h]
    · simp [setKey, hk, lookupQ, ih]

/-- The `for` loop of `rewardTheBird`, started at index `i` with budget
`frameSize`, is the fold of the per-index step over the descending index list
`[i, i-1, ...]` of length `min frameSize (i + 1)`. -/
theorem creditLoop_eq_fold (reward : ℚ) (ws : Bool) (buf : List Frame) :
    ∀ (frameSize i : ℕ) (tbl : QTable),
      creditLoop reward ws buf i frameSize tbl =
        ((List.range (min frameSize (i + 1))).map (fun k => i - k)).foldl
          (fun t j => creditStep reward ws buf j t) tbl := by
  intro frameSize
  induction frameSize with
  | zero => intro i tbl; simp [creditLoop]
  | succ fs ih =>
    intro i tbl
    cases i with
    | zero =>
      have h1 : min (fs + 1) (0 + 1) = 1 := by omega
      simp [creditLoop, h1, List.range_succ]
    | succ i =>
      have h1 : min (fs + 1) (i + 1 + 1) = min fs (i + 1) + 1 := by omega
      have h2 : (fun k => i + 1 - (k + 1)) = (fun k => i - k) := by
        funext k; omega
      rw [creditLoop, ih, h1, List.range_succ_eq_map]
      simp only [List.map_cons, List.foldl_cons, List.map_map, Nat.sub_zero,
        Function.comp_def, h2]

/-! ### The claims -/

/-- Claim C1: on a buffer with at least two entries, the credit-assignment
walk of `rewardTheBird` starts at the second-most-recent entry and proceeds
backward for up to `max 5 episodeFrameCount` iterations or until the buffer
start (the visited indices being `creditWalkIndices`), the most recent entry
(index `length - 1`) is never visited, and each visited `(state, action)`
pair has its estimate changed by exactly
`alpha * (rewardForState + gamma * optimalFuture - getQ state action)` with
`alpha = 0.1`, `gamma = 0.8`, the unshaped `rewardForState` being
`reward - |diffY|`, and `optimalFuture` the larger of the two action
estimates of the chronologically next buffer entry. -/
theorem c1_credit_walk (tbl : QTable) (buf : List Frame) (epc : ℕ) (reward : ℚ)
    (ws : Bool) (h : 2 ≤ buf.length) :
    (rewardTheBird tbl buf epc reward ws).1 = walkSpec reward ws buf (max 5 epc) tbl
    ∧ buf.length - 1 ∉ creditWalkIndices buf.length (max 5 epc)
    ∧ (∀ (t : QTable) (i : ℕ), i + 1 < buf.length →
        getQ (creditStep reward ws buf i t) (buf.getD i default).env
            (buf.getD i default).action
          = getQ t (buf.getD i default).env (buf.getD i default).action
            + alpha * (shapeReward ws reward (buf.getD i default).env
                (buf.getD i default).action
              + gamma * max (getQ t (buf.getD (i + 1) default).env STAY)
                  (getQ t (buf.getD (i + 1) default).env JUMP)
              - getQ t (buf.getD i default).env (buf.getD i default).action))
    ∧ alpha = 1/10 ∧ gamma = 4/5
    ∧ (∀ s a, shapeReward true reward s a = reward - |(s.diffY : ℚ)|) := by
  refine ⟨?_, ?_, ?_, rfl, rfl, fun s a => rfl⟩
  · have h2 : 2 ≤ buf.length := h
    have hmin : minFramSize = 5 := rfl
    simp only [rewardTheBird, hmin, if_pos h2, walkSpec]
    rw [creditLoop_eq_fold]
    have hidx : buf.length - 2 + 1 = buf.length - 1 := by omega
    rw [hidx]
    rfl
  · simp only [creditWalkIndices, List.mem_map, List.mem_range]
    rintro ⟨k, hk, heq⟩
    omega
  · intro t i _
    simp only [creditStep, getQ, setQ]
    rw [lookupQ_setKey_self]

/-- Witness for C1 at a concrete two-entry buffer. -/
theorem c1_credit_walk_witness :
    2 ≤ ([⟨⟨0, 20, 1⟩, 1⟩, ⟨⟨0, 19, 0⟩, 0⟩] : List Frame).length
    ∧ (rewardTheBird [] [⟨⟨0, 20, 1⟩, 1⟩, ⟨⟨0, 19, 0⟩, 0⟩] 2 5 true).1
        = walkSpec 5 true [⟨⟨0, 20, 1⟩, 1⟩, ⟨⟨0, 19, 0⟩, 0⟩] (max 5 2) []
    ∧ (rewardTheBird [] [⟨⟨0, 20, 1⟩, 1⟩, ⟨⟨0, 19, 0⟩, 0⟩] 2 5 true).1
        = [([1, 0, 20, 1], 2/5)] :=
  ⟨by norm_num,
   (c1_credit_walk [] [⟨⟨0, 20, 1⟩, 1⟩, ⟨⟨0, 19, 0⟩, 0⟩] 2 5 true (by norm_num)).1,
   by norm_num [rewardTheBird, creditLoop, creditStep, getQ, setQ, lookupQ, setKey,
     shapeReward, keyOf, alpha, gamma, STAY, JUMP, theta, minFramSize, List.getD]⟩

/-- Claim C4 counterexample: on a buffer of exactly five entries the source
keeps only the final four entries (the slice start `max(length - 5, 1)` is
clamped below at 1), while the claim promises the final five. -/
theorem c4_trim_counterexample :
    ((rewardTheBird []
        [⟨⟨0, 20, 0⟩, 0⟩, ⟨⟨1, 20, 0⟩, 0⟩, ⟨⟨2, 20, 0⟩, 0⟩, ⟨⟨3, 20, 0⟩, 0⟩, ⟨⟨4, 20, 0⟩, 0⟩]
        5 5 true).2.1).length = 4
    ∧ (4 : ℕ) ≠ 5
    ∧ (rewardTheBird []
        [⟨⟨0, 20, 0⟩, 0⟩, ⟨⟨1, 20, 0⟩, 0⟩, ⟨⟨2, 20, 0⟩, 0⟩, ⟨⟨3, 20, 0⟩, 0⟩, ⟨⟨4, 20, 0⟩, 0⟩]
        5 5 true).2.1
      = [⟨⟨1, 20, 0⟩, 0⟩, ⟨⟨2, 20, 0⟩, 0⟩, ⟨⟨3, 20, 0⟩, 0⟩, ⟨⟨4, 20, 0⟩, 0⟩] := by
  refine ⟨?_, by norm_num, ?_⟩ <;> simp [rewardTheBird, minFramSize]

/-- Claim C4 as amended: after `rewardTheBird` the buffer is a suffix of the
original of length `min 5 (length - 1)` — the slice start is clamped below
at 1, so a nonempty buffer always loses at least its first entry, keeping
only four entries when it held exactly five — and the per-episode step
counter is reset to 0; consequently the post-call length is at most 5. -/
theorem c4_trim_amended (tbl : QTable) (buf : List Frame) (epc : ℕ)
    (reward : ℚ) (ws : Bool) :
    (rewardTheBird tbl buf epc reward ws).2.1 <:+ buf
    ∧ ((rewardTheBird tbl buf epc reward ws).2.1).length = min 5 (buf.length - 1)
    ∧ (rewardTheBird tbl buf epc reward ws).2.2 = 0
    ∧ ((rewardTheBird tbl buf epc reward ws).2.1).length ≤ 5 := by
  refine ⟨List.drop_suffix _ _, ?_, rfl, ?_⟩ <;>
    simp only [rewardTheBird, List.length_drop, minFramSize] <;> omega

/-- Claim C6: `rewardTheBird` on a buffer holding at most one entry performs
zero walk iterations — the Q-table comes back unchanged, for any reward and
success flag. -/
theorem c6_short_buffer_no_mutation (tbl : QTable) (buf : List Frame) (epc : ℕ)
    (reward : ℚ) (ws : Bool) (h : buf.length ≤ 1) :
    (rewardTheBird tbl buf epc reward ws).1 = tbl := by
  have h2 : ¬ 2 ≤ buf.length := by omega
  simp [rewardTheBird, h2]

/-- Witness for C6 on the empty buffer and a one-entry buffer. -/
theorem c6_short_buffer_no_mutation_witness :
    ([] : List Frame).length ≤ 1
    ∧ (rewardTheBird [([0, 0, 0, 0], 1)] [] 0 100 false).1 = [([0, 0, 0, 0], 1)]
    ∧ ([⟨⟨0, 20, 3⟩, 1⟩] : List Frame).length ≤ 1
    ∧ (rewardTheBird [([0, 0, 0, 0], 1)] [⟨⟨0, 20, 3⟩, 1⟩] 1 100 false).1
        = [([0, 0, 0, 0], 1)] :=
  ⟨by norm_num,
   c6_short_buffer_no_mutation [([0, 0, 0, 0], 1)] [] 0 100 false (by norm_num),
   by norm_num,
   c6_short_buffer_no_mutation [([0, 0, 0, 0], 1)] [⟨⟨0, 20, 3⟩, 1⟩] 1 100 false (by norm_num)⟩

/-- The failure shaping of the source, rephrased over the integer deviation:
negation exactly when the deviation is at least `θ = 1` above with a jump, or
at least `θ` below with a stay. -/
theorem shapeReward_false_eq (reward : ℚ) (s : BirdState) (a : ℕ) :
    shapeReward false reward s a
      = if (1 ≤ s.diffY ∧ a = JUMP) ∨ (s.diffY ≤ -1 ∧ a = STAY)
        then -(reward - |(s.diffY : ℚ)|) else 1/2 := by
  have h1 : ((s.diffY : ℚ) ≥ theta) ↔ (1 ≤ s.diffY) := by
    rw [theta, ge_iff_le]; exact_mod_cast Iff.rfl
  have h2 : ((s.diffY : ℚ) ≤ -theta) ↔ (s.diffY ≤ -1) := by
    rw [theta]; exact_mod_cast Iff.rfl
  show (if ((s.diffY : ℚ) ≥ theta ∧ a = JUMP) then _
    else if ((s.diffY : ℚ) ≤ -theta ∧ a = STAY) then _ else _) = _
  by_cases hA : (s.diffY : ℚ) ≥ theta ∧ a = JUMP
  · rw [if_pos hA, if_pos (Or.inl ⟨h1.mp hA.1, hA.2⟩)]
  · rw [if_neg hA]
    by_cases hB : (s.diffY : ℚ) ≤ -theta ∧ a = STAY
    · rw [if_pos hB, if_pos (Or.inr ⟨h2.mp hB.1, hB.2⟩)]
    · rw [if_neg hB, if_neg ?_]
      rintro (⟨hu, hj⟩ | ⟨hd, hs⟩)
      · exact hA ⟨h1.mpr hu, hj⟩
      · exact hB ⟨h2.mpr hd, hs⟩

/-- On a two-entry buffer, `rewardTheBird` performs exactly the single
temporal-difference update for the older entry. -/
theorem rewardTheBird_pair (ws : Bool) (s : BirdState) (a : ℕ) (e2 : Frame)
    (reward : ℚ) (tbl : QTable) (epc : ℕ) :
    getQ (rewardTheBird tbl [⟨s, a⟩, e2] epc reward ws).1 s a
      = getQ tbl s a + alpha * (shapeReward ws reward s a
          + gamma * max (getQ tbl e2.env STAY) (getQ tbl e2.env JUMP)
          - getQ tbl s a) := by
  have h2 : 2 ≤ ([⟨s, a⟩, e2] : List Frame).length := by norm_num
  have hmin : min (max minFramSize epc) (0 + 1) = 1 := by
    simp only [minFramSize]; omega
  simp only [rewardTheBird, if_pos h2]
  simp only [List.length_cons, List.length_nil]
  rw [show (0 + 1 + 1 : ℕ) - 2 = 0 from rfl, creditLoop_eq_fold, hmin]
  simp only [List.range_succ, List.range_zero, List.nil_append, List.map_cons,
    List.map_nil, List.foldl_cons, List.foldl_nil, Nat.sub_zero, creditStep,
    List.getD, List.get?, Option.getD_some, getQ, setQ]
  simp only [lookupQ_setKey_self]

/-- Claim C2 counterexample: at vertical deviation exactly `1` (not *more
than* the tolerance `θ = 1`) with a recorded jump on a failed episode, the
source negates the reward (shaped value `-(5 - 1) = -4`, estimate change
`-0.4`), while the claim's strict-threshold shaping prescribes `+0.5`
(estimate change `+0.05`). -/
theorem c2_shaping_counterexample :
    getQ (rewardTheBird [] [⟨⟨0, 20, 1⟩, 1⟩, ⟨⟨0, 19, 0⟩, 0⟩] 1 5 false).1 ⟨0, 20, 1⟩ 1
      = -(2/5)
    ∧ shapeReward false 5 ⟨0, 20, 1⟩ 1 = -4
    ∧ shapeRewardClaim false 5 ⟨0, 20, 1⟩ 1 = 1/2
    ∧ shapeReward false 5 ⟨0, 20, 1⟩ 1 ≠ shapeRewardClaim false 5 ⟨0, 20, 1⟩ 1
    ∧ (-(2/5) : ℚ) ≠ alpha * (shapeRewardClaim false 5 ⟨0, 20, 1⟩ 1 + gamma * 0 - 0) := by
  refine ⟨?_, ?_, ?_, ?_, ?_⟩ <;>
    norm_num [rewardTheBird, creditLoop, creditStep, getQ, setQ, lookupQ, setKey,
      shapeReward, shapeRewardClaim, keyOf, alpha, gamma, STAY, JUMP, theta,
      minFramSize, List.getD]

/-- Claim C2 as amended: the failure shaping fires at deviations of *at
least* the tolerance `θ = 1` (the source tests `>= theta` and `<= -theta`),
negating the reward for an above-line jump or a below-line stay and
otherwise substituting the fixed `+0.5`; a successful episode keeps
`reward - |diffY|` unshaped.  Both facts are also propagated through
`rewardTheBird` on a two-entry buffer. -/
theorem c2_shaping_amended (s : BirdState) (a : ℕ) (e2 : Frame) (reward : ℚ)
    (tbl : QTable) (epc : ℕ) :
    shapeReward false reward s a
      = (if (1 ≤ s.diffY ∧ a = JUMP) ∨ (s.diffY ≤ -1 ∧ a = STAY)
         then -(reward - |(s.diffY : ℚ)|) else 1/2)
    ∧ shapeReward true reward s a = reward - |(s.diffY : ℚ)|
    ∧ getQ (rewardTheBird tbl [⟨s, a⟩, e2] epc reward false).1 s a
      = getQ tbl s a
        + alpha * ((if (1 ≤ s.diffY ∧ a = JUMP) ∨ (s.diffY ≤ -1 ∧ a = STAY)
              then -(reward - |(s.diffY : ℚ)|) else 1/2)
            + gamma * max (getQ tbl e2.env STAY) (getQ tbl e2.env JUMP)
            - getQ tbl s a)
    ∧ getQ (rewardTheBird tbl [⟨s, a⟩, e2] epc reward true).1 s a
      = getQ tbl s a
        + alpha * ((reward - |(s.diffY : ℚ)|)
            + gamma * max (getQ tbl e2.env STAY) (getQ tbl e2.env JUMP)
            - getQ tbl s a) :=
  ⟨shapeReward_false_eq reward s a, rfl,
   by rw [rewardTheBird_pair, shapeReward_false_eq],
   by rw [rewardTheBird_pair]; rfl⟩

/-- Claim C9: the walk applies each update immediately, so a step whose
"future" entry was updated earlier in the same walk reads the updated
estimate.  On the buffer `[(s,a), (s,a), e₂]` the final estimate of `(s,a)`
is expressed through the intermediate table `setQ tbl s a d₁` produced by
the first walk step; and on a concrete run the source result (`0.99`)
differs from the value (`0.95`) that reading `optimalFuture` from the
call-entry table would produce. -/
theorem c9_intra_walk_reads (tbl : QTable) (s : BirdState) (a : ℕ) (e2 : Frame)
    (reward : ℚ) (epc : ℕ) :
    (getQ (rewardTheBird tbl [⟨s, a⟩, ⟨s, a⟩, e2] epc reward true).1 s a
      = getQ (setQ tbl s a (alpha * (shapeReward true reward s a
            + gamma * max (getQ tbl e2.env STAY) (getQ tbl e2.env JUMP)
            - getQ tbl s a))) s a
        + alpha * (shapeReward true reward s a
            + gamma * max
                (getQ (setQ tbl s a (alpha * (shapeReward true reward s a
                    + gamma * max (getQ tbl e2.env STAY) (getQ tbl e2.env JUMP)
                    - getQ tbl s a))) s STAY)
                (getQ (setQ tbl s a (alpha * (shapeReward true reward s a
                    + gamma * max (getQ tbl e2.env STAY) (getQ tbl e2.env JUMP)
                    - getQ tbl s a))) s JUMP)
            - getQ (setQ tbl s a (alpha * (shapeReward true reward s a
                + gamma * max (getQ tbl e2.env STAY) (getQ tbl e2.env JUMP)
                - getQ tbl s a))) s a))
    ∧ (rewardTheBird [] [⟨⟨0, 20, 0⟩, 0⟩, ⟨⟨0, 20, 0⟩, 0⟩, ⟨⟨0, 19, 0⟩, 0⟩] 3 5 true).1
        = [([0, 0, 20, 0], 99/100)]
    ∧ walkStale 5 true [⟨⟨0, 20, 0⟩, 0⟩, ⟨⟨0, 20, 0⟩, 0⟩, ⟨⟨0, 19, 0⟩, 0⟩] 5 []
        = [([0, 0, 20, 0], 95/100)]
    ∧ ((99 : ℚ)/100) ≠ 95/100 := by
  refine ⟨?_, ?_, ?_, by norm_num⟩
  · have h2 : 2 ≤ ([⟨s, a⟩, ⟨s, a⟩, e2] : List Frame).length := by norm_num
    have hmin : min (max minFramSize epc) (1 + 1) = 2 := by
      simp only [minFramSize]; omega
    simp only [rewardTheBird, if_pos h2]
    simp only [List.length_cons, List.length_nil]
    rw [show (0 + 1 + 1 + 1 : ℕ) - 2 = 1 from rfl, creditLoop_eq_fold, hmin]
    simp only [List.range_succ, List.range_zero, List.nil_append, List.map_cons,
      List.map_append, List.map_nil, List.foldl_cons, List.foldl_nil, Nat.sub_zero,
      Nat.sub_self, List.append_assoc, List.singleton_append, creditStep,
      List.getD, List.get?, Option.getD_some, getQ, setQ]
    simp only [lookupQ_setKey_self]
  · norm_num [rewardTheBird, creditLoop, creditStep, getQ, setQ, lookupQ, setKey,
      shapeReward, keyOf, alpha, gamma, STAY, JUMP, theta, minFramSize, List.getD]
  · norm_num [walkStale, creditWalkIndices, creditStepStale, getQ, setQ, lookupQ,
      setKey, shapeReward, keyOf, alpha, gamma, STAY, JUMP, theta, List.getD,
      List.range_succ]

/-- Assigning a fresh key appends it. -/
theorem jsAssign_not_mem (acc : List (List ℤ × Jv)) (k : List ℤ) (v : Jv)
    (h : k ∉ acc.map Prod.fst) : jsAssign acc k v = acc ++ [(k, v)] := by
  induction acc with
  | nil => rfl
  | cons hd rest ih =>
    obtain ⟨k₀, v₀⟩ := hd
    simp only [List.map_cons, List.mem_cons, not_or] at h
    have hne : ¬ k₀ = k := fun hk => h.1 hk.symm
    simp only [jsAssign, if_neg hne]
    rw [ih h.2]
    simp

/-- Rebuilding an object from a member list with pairwise distinct keys
reproduces the list. -/
theorem foldl_jsAssign_eq (es : List (List ℤ × Jv)) :
    ∀ acc : List (List ℤ × Jv),
      (∀ k, k ∈ es.map Prod.fst → k ∉ acc.map Prod.fst) →
      (es.map Prod.fst).Nodup →
      es.foldl (fun a kv => jsAssign a kv.1 kv.2) acc = acc ++ es := by
  induction es with
  | nil => intro acc _ _; simp
  | cons hd rest ih =>
    obtain ⟨k, v⟩ := hd
    intro acc hdis hnd
    rw [List.map_cons, List.nodup_cons] at hnd
    simp only [List.foldl_cons]
    rw [jsAssign_not_mem acc k v (hdis k (by simp))]
    rw [ih (acc ++ [(k, v)]) ?_ hnd.2]
    · simp
    · intro k' hk'
      simp only [List.map_append, List.mem_append, List.map_cons, List.map_nil,
        List.mem_singleton, not_or]
      refine ⟨hdis k' (by simp [hk']), ?_⟩
      intro hkk
      exact hnd.1 (hkk ▸ hk')

/-- `objFromEntries` is the identity on member lists with distinct keys. -/
theorem objFromEntries_eq_self (es : List (List ℤ × Jv))
    (h : (es.map Prod.fst).Nodup) : objFromEntries es = es := by
  have hres := foldl_jsAssign_eq es [] (by simp) h
  simpa [objFromEntries] using hres

/-- Member lookup in the serialized table agrees with table lookup. -/
theorem jvFindNum_tableMap (T : QTable) (k : List ℤ) :
    jvFindNum (T.map fun kv => (kv.1, Jv.num kv.2)) k = lookupQ T k := by
  induction T with
  | nil => rfl
  | cons hd rest ih =>
    obtain ⟨k₀, v⟩ := hd
    by_cases h : k₀ = k <;> simp [jvFindNum, lookupQ, h, ih]

/-- Claim C7: deserializing a serialized Q-table (`loadModel` after
`saveModel`) restores the table exactly — the loaded value is structurally
the serialized table, and every `(state, action)` query against the loaded
value returns the estimate the table held at serialization time. -/
theorem c7_roundtrip (T : QTable) (q0 : Jv) (h : (T.map Prod.fst).Nodup) :
    loadModel (some (saveModel T)) q0
      = ⟨tableToJson T, some "Model was loaded successfully!", none⟩
    ∧ (∀ s a, getQLoaded (tableToJson T) s a = getQ T s a)
    ∧ (∀ k, jvFindNum (T.map fun kv => (kv.1, Jv.num kv.2)) k = lookupQ T k) := by
  have hkeys : (((T.map fun kv => (kv.1, Jv.num kv.2)).map Prod.fst)).Nodup := by
    have hmap : ((T.map fun kv => (kv.1, Jv.num kv.2)).map Prod.fst) = T.map Prod.fst := by
      simp [List.map_map, Function.comp_def]
    rw [hmap]; exact h
  refine ⟨?_, ?_, fun k => jvFindNum_tableMap T k⟩
  · simp only [loadModel, saveModel, jsonParseOfItem, normalizeTop, tableToJson]
    rw [objFromEntries_eq_self _ hkeys]
  · intro s a
    simp only [getQLoaded, tableToJson, getQ]
    exact jvFindNum_tableMap T (keyOf s a)

/-- Witness for C7 on a concrete two-entry table. -/
theorem c7_roundtrip_witness :
    (([([1, 2, 3, 0], 1/2), ([4, 5, 6, 1], -3)] : QTable).map Prod.fst).Nodup
    ∧ loadModel (some (saveModel [([1, 2, 3, 0], 1/2), ([4, 5, 6, 1], -3)])) Jv.null
      = ⟨tableToJson [([1, 2, 3, 0], 1/2), ([4, 5, 6, 1], -3)],
          some "Model was loaded successfully!", none⟩
    ∧ getQLoaded (tableToJson [([1, 2, 3, 0], 1/2), ([4, 5, 6, 1], -3)]) ⟨2, 3, 1⟩ 0
      = 1/2 :=
  ⟨by decide,
   (c7_roundtrip [([1, 2, 3, 0], 1/2), ([4, 5, 6, 1], -3)] Jv.null (by decide)).1,
   by norm_num [getQLoaded, tableToJson, jvFindNum, keyOf]⟩

/-- Claim C8 (code bug): the unguarded `loadModel` copy
(`Q_table = JSON.parse(localStorage.getItem(...))` with no null check) runs
`JSON.parse(null)` when no document is stored — the argument is coerced to
the string `"null"`, which parses to the JSON `null` value — so the call
reports success and overwrites the table with `null` instead of failing with
a not-found error and leaving the table alone.  The guarded copy behaves as
the claim demands: a missing document only alerts without touching the
table, and a malformed document raises the parse error with the table
unchanged (in both copies). -/
theorem c8_load_missing_bug :
    loadModelUnguarded none (tableToJson [([1, 2, 3, 0], 5)])
      = ⟨Jv.null, some "Model was loaded successfully!", none⟩
    ∧ Jv.null ≠ tableToJson [([1, 2, 3, 0], 5)]
    ∧ (∀ qt, loadModel none qt = ⟨qt, some "No saved model found in local storage", none⟩)
    ∧ (∀ qt, loadModel (some .malformed) qt = ⟨qt, none, some .syntaxError⟩)
    ∧ (∀ qt, loadModelUnguarded (some .malformed) qt = ⟨qt, none, some .syntaxError⟩) :=
  ⟨rfl, fun hcontra => Jv.noConfusion hcontra, fun _ => rfl, fun _ => rfl, fun _ => rfl⟩

/-- Claim C10 counterexample: a tick in the active-play state whose target
tube is 35 px away (beyond the 28 px threshold) but on which the target-tube
index flips from 0 to 1 — the episode-boundary `rewardTheBird(5, true)` call
runs *before* the distance check, so the Value Table is written even though
`nextStep` then returns early. -/
theorem c10_early_return_counterexample :
    GameS.gameState
        { gameState := 1, tube0x := 0, tube0y := 10, tube1x := 40, tube1y := 10,
          birdX := 5, birdY := 14, birdYSpeed := 1/4, targetTubeIndex := 0,
          frameBuffer := [⟨⟨0, 20, 0⟩, 0⟩, ⟨⟨0, 19, 0⟩, 0⟩],
          episodeFrameCount := 2, qtable := [] } = GAME
    ∧ targetTubeX
        { gameState := 1, tube0x := 0, tube0y := 10, tube1x := 40, tube1y := 10,
          birdX := 5, birdY := 14, birdYSpeed := 1/4, targetTubeIndex := 0,
          frameBuffer := [⟨⟨0, 20, 0⟩, 0⟩, ⟨⟨0, 19, 0⟩, 0⟩],
          episodeFrameCount := 2, qtable := [] }
      - (5 : ℤ) > 28
    ∧ (nextStep
        { gameState := 1, tube0x := 0, tube0y := 10, tube1x := 40, tube1y := 10,
          birdX := 5, birdY := 14, birdYSpeed := 1/4, targetTubeIndex := 0,
          frameBuffer := [⟨⟨0, 20, 0⟩, 0⟩, ⟨⟨0, 19, 0⟩, 0⟩],
          episodeFrameCount := 2, qtable := [] } (1/2) (1/2)).qtable
      = [([0, 0, 20, 0], 1/2)]
    ∧ ([([0, 0, 20, 0], 1/2)] : QTable) ≠ [] := by
  refine ⟨rfl, by norm_num [targetTubeX, tubeChoiceIsZero], ?_, by simp⟩
  norm_num [nextStep, GAME, boundaryFires, tubeChoiceIsZero, targetTubeX,
    newTargetIndex, rewardTheBird, creditLoop, creditStep, getQ, setQ, lookupQ,
    setKey, shapeReward, keyOf, minFramSize, alpha, gamma, STAY, JUMP, theta,
    List.getD]

/-- Claim C10 as amended: outside the active-play state `nextStep` changes
nothing; on a tick whose target tube is more than 28 px away it returns
before encoding a state — the bird's vertical speed and position are
untouched, nothing is appended to the episode buffer (the post-call buffer
is a suffix of the pre-call one) — but the episode-boundary detection runs
first, so only when the target-tube index does not flip is the Value Table
guaranteed untouched (with buffer and step counter also unchanged). -/
theorem c10_early_return_amended (g : GameS) (r1 r2 : ℚ) :
    (g.gameState ≠ GAME → nextStep g r1 r2 = g)
    ∧ (g.gameState = GAME → targetTubeX g - g.birdX > 28 →
        (nextStep g r1 r2).birdYSpeed = g.birdYSpeed
        ∧ (nextStep g r1 r2).birdY = g.birdY
        ∧ (nextStep g r1 r2).frameBuffer <:+ g.frameBuffer
        ∧ (¬ boundaryFires g →
            (nextStep g r1 r2).qtable = g.qtable
            ∧ (nextStep g r1 r2).frameBuffer = g.frameBuffer
            ∧ (nextStep g r1 r2).episodeFrameCount = g.episodeFrameCount)) := by
  constructor
  · intro h
    simp [nextStep, h]
  · intro hg h28
    have hne : ¬ g.gameState ≠ GAME := by simp [hg]
    simp only [nextStep, if_neg hne, if_pos h28]
    by_cases hb : boundaryFires g
    · simp only [if_pos hb, rewardTheBird]
      exact ⟨by trivial, by trivial, List.drop_suffix _ _, fun hnb => absurd hb hnb⟩
    · simp only [if_neg hb]
      exact ⟨by trivial, by trivial, List.suffix_refl _,
        fun _ => ⟨by trivial, by trivial, by trivial⟩⟩

/-- Witness for C10 as amended: a home-screen tick is a no-op, and an
active tick with the target 35 px away and no index flip leaves table,
buffer, step counter, and bird untouched. -/
theorem c10_early_return_amended_witness :
    (nextStep
        { gameState := 0, tube0x := 48, tube0y := 10, tube1x := 67, tube1y := 10,
          birdX := 5, birdY := 14, birdYSpeed := 0, targetTubeIndex := -1,
          frameBuffer := [], episodeFrameCount := 0, qtable := [] } (1/2) (1/2)
      = { gameState := 0, tube0x := 48, tube0y := 10, tube1x := 67, tube1y := 10,
          birdX := 5, birdY := 14, birdYSpeed := 0, targetTubeIndex := -1,
          frameBuffer := [], episodeFrameCount := 0, qtable := [] })
    ∧ ((nextStep
        { gameState := 1, tube0x := 0, tube0y := 10, tube1x := 40, tube1y := 10,
          birdX := 5, birdY := 14, birdYSpeed := 1/4, targetTubeIndex := 1,
          frameBuffer := [⟨⟨0, 20, 0⟩, 0⟩], episodeFrameCount := 1,
          qtable := [([9, 9, 9, 9], 1)] } (1/2) (1/2)).qtable
      = [([9, 9, 9, 9], 1)]) := by
  constructor
  · exact (c10_early_return_amended _ (1/2) (1/2)).1 (by norm_num [GAME])
  · exact (((c10_early_return_amended _ (1/2) (1/2)).2 rfl
      (by norm_num [targetTubeX, tubeChoiceIsZero])).2.2.2
      (by norm_num [boundaryFires, tubeChoiceIsZero])).1

/-- The exploration override fires exactly on `{0} ∪ (0.9, 0.90001]`:
`Math.ceil(r * 100000)` lands on a multiple of 90001 only at 0 and 90001. -/
theorem exploreFireSet_eq :
    exploreFireSet = {(0 : ℝ)} ∪ Set.Ioc (9/10 : ℝ) (90001/100000) := by
  ext r
  simp only [exploreFireSet, Set.mem_setOf_eq, Set.mem_Ico, Set.mem_union,
    Set.mem_singleton_iff, Set.mem_Ioc]
  constructor
  · rintro ⟨⟨h0, h1⟩, hmod⟩
    have hcl : (0 : ℤ) ≤ ⌈r * 100000⌉ := Int.ceil_nonneg (by positivity)
    have hcu : ⌈r * 100000⌉ ≤ 100000 := by
      rw [Int.ceil_le]; push_cast; nlinarith
    have hcases : ⌈r * 100000⌉ = 0 ∨ ⌈r * 100000⌉ = 90001 := by omega
    rcases hcases with h | h
    · left
      have hle : r * 100000 ≤ ((0 : ℤ) : ℝ) := Int.ceil_le.mp h.le
      push_cast at hle
      nlinarith
    · right
      obtain ⟨hl, hu⟩ := Int.ceil_eq_iff.mp h
      push_cast at hl hu
      constructor <;> nlinarith
  · rintro (h | ⟨hl, hu⟩)
    · subst h
      norm_num
    · have hceil : ⌈r * 100000⌉ = 90001 := by
        rw [Int.ceil_eq_iff]
        push_cast
        constructor <;> nlinarith
      exact ⟨⟨by nlinarith, by nlinarith⟩, by rw [hceil]; decide⟩

/-- The exploration override has probability `1/100000`. -/
theorem volume_exploreFireSet :
    MeasureTheory.volume exploreFireSet = ENNReal.ofReal (1/100000) := by
  rw [exploreFireSet_eq]
  have h1 : MeasureTheory.volume (Set.Ioc (9/10 : ℝ) (90001/100000))
      = ENNReal.ofReal (1/100000) := by
    rw [Real.volume_Ioc]
    norm_num
  refine le_antisymm ?_ ?_
  · refine le_trans (MeasureTheory.measure_union_le _ _) ?_
    rw [Real.volume_singleton, h1, zero_add]
  · rw [← h1]
    exact MeasureTheory.measure_mono Set.subset_union_right

/-- The float test `(r * 100) % 4 == 0` holds only on the 25 rational points
`k/25` of `[0, 1)`, a null set. -/
theorem volume_exploreJumpSet : MeasureTheory.volume exploreJumpSet = 0 := by
  have hsub : exploreJumpSet ⊆ Set.range (fun k : ℤ => (k : ℝ) / 25) := by
    rintro r ⟨⟨h0, _⟩, hmod⟩
    have hx : (0 : ℝ) ≤ r * 100 / 4 := by positivity
    simp only [jsFmod, jsTrunc, if_pos hx] at hmod
    refine ⟨⌊r * 100 / 4⌋, ?_⟩
    have h4 : (4 : ℝ) ≠ 0 := by norm_num
    field_simp
    linarith
  exact MeasureTheory.measure_mono_null hsub ((Set.countable_range _).measure_zero _)

/-- Within the exploration branch, the stay outcome has probability 1. -/
theorem volume_exploreStaySet :
    MeasureTheory.volume exploreStaySet = ENNReal.ofReal 1 := by
  have hdiff : exploreStaySet = Set.Ico (0 : ℝ) 1 \ exploreJumpSet := by
    ext r
    simp only [exploreStaySet, exploreJumpSet, Set.mem_setOf_eq, Set.mem_diff]
    tauto
  rw [hdiff, MeasureTheory.measure_diff (fun r hr => hr.1)
    (MeasureTheory.NullMeasurableSet.of_null volume_exploreJumpSet)
    (by rw [volume_exploreJumpSet]; exact ENNReal.zero_ne_top),
    volume_exploreJumpSet, Real.volume_Ico, tsub_zero]
  norm_num

/-- The tie break jumps exactly on
`{0} ∪ (0.24, 0.25] ∪ (0.49, 0.5] ∪ (0.74, 0.75] ∪ (0.99, 1)`. -/
theorem tieJumpSet_eq :
    tieJumpSet = {(0 : ℝ)}
      ∪ (Set.Ioc (24/100 : ℝ) (25/100) ∪ (Set.Ioc (49/100 : ℝ) (50/100)
        ∪ (Set.Ioc (74/100 : ℝ) (75/100) ∪ Set.Ioo (99/100 : ℝ) 1))) := by
  ext r
  simp only [tieJumpSet, Set.mem_setOf_eq, Set.mem_Ico, Set.mem_union,
    Set.mem_singleton_iff, Set.mem_Ioc, Set.mem_Ioo]
  constructor
  · rintro ⟨⟨h0, h1⟩, hmod⟩
    have hcl : (0 : ℤ) ≤ ⌈r * 100⌉ := Int.ceil_nonneg (by positivity)
    have hcu : ⌈r * 100⌉ ≤ 100 := by
      rw [Int.ceil_le]; push_cast; nlinarith
    have hcases : ⌈r * 100⌉ = 0 ∨ ⌈r * 100⌉ = 25 ∨ ⌈r * 100⌉ = 50
        ∨ ⌈r * 100⌉ = 75 ∨ ⌈r * 100⌉ = 100 := by omega
    rcases hcases with h | h | h | h | h
    · left
      have hle : r * 100 ≤ ((0 : ℤ) : ℝ) := Int.ceil_le.mp h.le
      push_cast at hle
      nlinarith
    all_goals right
    · left
      obtain ⟨hl, hu⟩ := Int.ceil_eq_iff.mp h
      push_cast at hl hu
      constructor <;> nlinarith
    all_goals right
    · left
      obtain ⟨hl, hu⟩ := Int.ceil_eq_iff.mp h
      push_cast at hl hu
      constructor <;> nlinarith
    all_goals right
    · left
      obtain ⟨hl, hu⟩ := Int.ceil_eq_iff.mp h
      push_cast at hl hu
      constructor <;> nlinarith
    · right
      obtain ⟨hl, hu⟩ := Int.ceil_eq_iff.mp h
      push_cast at hl hu
      exact ⟨by nlinarith, by nlinarith⟩
  · have hceil : ∀ z : ℤ, ((z : ℝ) - 1 < r * 100 ∧ r * 100 ≤ z) → ⌈r * 100⌉ = z := by
      intro z hz
      rw [Int.ceil_eq_iff]
      exact_mod_cast hz
    rintro (h | h | h | h | h)
    · subst h
      norm_num
    · obtain ⟨hl, hu⟩ := h
      rw [hceil 25 ⟨by push_cast; nlinarith, by push_cast; nlinarith⟩]
      exact ⟨⟨by nlinarith, by nlinarith⟩, by decide⟩
    · obtain ⟨hl, hu⟩ := h
      rw [hceil 50 ⟨by push_cast; nlinarith, by push_cast; nlinarith⟩]
      exact ⟨⟨by nlinarith, by nlinarith⟩, by decide⟩
    · obtain ⟨hl, hu⟩ := h
      rw [hceil 75 ⟨by push_cast; nlinarith, by push_cast; nlinarith⟩]
      exact ⟨⟨by nlinarith, by nlinarith⟩, by decide⟩
    · obtain ⟨hl, hu⟩ := h
      rw [hceil 100 ⟨by push_cast; nlinarith, by push_cast; nlinarith⟩]
      exact ⟨⟨by nlinarith, by nlinarith⟩, by decide⟩

/-- The tie break jumps with probability `1/25`. -/
theorem volume_tieJumpSet :
    MeasureTheory.volume tieJumpSet = ENNReal.ofReal (1/25) := by
  have hD : MeasureTheory.volume (Set.Ioc (74/100 : ℝ) (75/100)
      ∪ Set.Ioo (99/100 : ℝ) 1) = ENNReal.ofReal (2/100) := by
    rw [MeasureTheory.measure_union ?_ measurableSet_Ioo, Real.volume_Ioc,
      Real.volume_Ioo, ← ENNReal.ofReal_add (by norm_num) (by norm_num)]
    · norm_num
    · rw [Set.disjoint_left]
      rintro x ⟨_, hx2⟩ ⟨hx3, _⟩
      linarith
  have hC : MeasureTheory.volume (Set.Ioc (49/100 : ℝ) (50/100)
      ∪ (Set.Ioc (74/100 : ℝ) (75/100) ∪ Set.Ioo (99/100 : ℝ) 1))
      = ENNReal.ofReal (3/100) := by
    rw [MeasureTheory.measure_union ?_ (measurableSet_Ioc.union measurableSet_Ioo),
      Real.volume_Ioc, hD, ← ENNReal.ofReal_add (by norm_num) (by norm_num)]
    · norm_num
    · rw [Set.disjoint_left]
      rintro x ⟨_, hx2⟩ (⟨hx3, _⟩ | ⟨hx3, _⟩) <;> linarith
  have hB : MeasureTheory.volume (Set.Ioc (24/100 : ℝ) (25/100)
      ∪ (Set.Ioc (49/100 : ℝ) (50/100)
        ∪ (Set.Ioc (74/100 : ℝ) (75/100) ∪ Set.Ioo (99/100 : ℝ) 1)))
      = ENNReal.ofReal (4/100) := by
    rw [MeasureTheory.measure_union ?_
        (measurableSet_Ioc.union (measurableSet_Ioc.union measurableSet_Ioo)),
      Real.volume_Ioc, hC, ← ENNReal.ofReal_add (by norm_num) (by norm_num)]
    · norm_num
    · rw [Set.disjoint_left]
      rintro x ⟨_, hx2⟩ (⟨hx3, _⟩ | ⟨hx3, _⟩ | ⟨hx3, _⟩) <;> linarith
  rw [tieJumpSet_eq]
  refine le_antisymm ?_ ?_
  · refine le_trans (MeasureTheory.measure_union_le _ _) ?_
    rw [Real.volume_singleton, hB, zero_add]
    rw [show (4/100 : ℝ) = 1/25 by norm_num]
  · rw [show ENNReal.ofReal (1/25) = ENNReal.ofReal (4/100) by norm_num, ← hB]
    exact MeasureTheory.measure_mono Set.subset_union_right

/-- The tie break is measurable (needed to subtract its probability). -/
theorem tieJumpSet_nullMeasurable :
    MeasureTheory.NullMeasurableSet tieJumpSet MeasureTheory.volume := by
  rw [tieJumpSet_eq]
  exact (((measurableSet_singleton 0).union (measurableSet_Ioc.union
    (measurableSet_Ioc.union (measurableSet_Ioc.union
      measurableSet_Ioo)))).nullMeasurableSet)

/-- The tie break stays with probability `24/25`. -/
theorem volume_tieStaySet :
    MeasureTheory.volume tieStaySet = ENNReal.ofReal (24/25) := by
  have hdiff : tieStaySet = Set.Ico (0 : ℝ) 1 \ tieJumpSet := by
    ext r
    simp only [tieStaySet, tieJumpSet, Set.mem_setOf_eq, Set.mem_diff]
    tauto
  rw [hdiff, MeasureTheory.measure_diff (fun r hr => hr.1) tieJumpSet_nullMeasurable
    (by rw [volume_tieJumpSet]; exact ENNReal.ofReal_ne_top),
    volume_tieJumpSet, Real.volume_Ico,
    ← ENNReal.ofReal_sub _ (by norm_num)]
  norm_num

/-- Claim C3 counterexample: the exploration override fires with probability
exactly `1/100000`, not `≈ 1/9000`, and within the override the jump
sub-branch has probability 0, not `1/4` (its test is a float modulus that
only finitely many draws satisfy). -/
theorem c3_exploration_counterexample :
    MeasureTheory.volume exploreFireSet = ENNReal.ofReal (1/100000)
    ∧ ENNReal.ofReal ((1 : ℝ)/100000) ≠ ENNReal.ofReal ((1 : ℝ)/9000)
    ∧ MeasureTheory.volume exploreJumpSet = 0
    ∧ (0 : ENNReal) ≠ ENNReal.ofReal ((1 : ℝ)/4) := by
  refine ⟨volume_exploreFireSet, ?_, volume_exploreJumpSet, ?_⟩
  · intro hcontra
    rw [ENNReal.ofReal_eq_ofReal_iff (by norm_num) (by norm_num)] at hcontra
    norm_num at hcontra
  · intro hcontra
    rw [eq_comm, ENNReal.ofReal_eq_zero] at hcontra
    norm_num at hcontra

/-- Claim C3 as amended: the exploration override fires with probability
`1/100000` (as the source's own comment says), independently of the table
contents, and within that branch the jump sub-outcome has probability 0 and
the stay sub-outcome probability 1 — the branch returns `JUMP` exactly when
the float modulus `(r2 * 100) % 4` is 0, which almost never happens. -/
theorem c3_exploration_amended :
    MeasureTheory.volume exploreFireSet = ENNReal.ofReal (1/100000)
    ∧ MeasureTheory.volume exploreJumpSet = 0
    ∧ MeasureTheory.volume exploreStaySet = ENNReal.ofReal 1
    ∧ (∀ (tbl tbl' : QTable) (s s' : BirdState) (r1 r2 : ℚ),
        ⌈r1 * 100000⌉ % 90001 = 0 →
          getAction tbl s r1 r2 = getAction tbl' s' r1 r2)
    ∧ (∀ (tbl : QTable) (s : BirdState) (r1 r2 : ℚ),
        ⌈r1 * 100000⌉ % 90001 = 0 →
          getAction tbl s r1 r2 = if jsFmod (r2 * 100) 4 = 0 then JUMP else STAY) := by
  refine ⟨volume_exploreFireSet, volume_exploreJumpSet, volume_exploreStaySet, ?_, ?_⟩
  · intro tbl tbl' s s' r1 r2 h
    simp [getAction, h]
  · intro tbl s r1 r2 h
    simp [getAction, h]

/-- Witness for C3 as amended at the draw `r1 = 0.90001`, on which the
override fires and (with `r2 = 1/2`) stays, regardless of the table. -/
theorem c3_exploration_amended_witness :
    ⌈(90001/100000 : ℚ) * 100000⌉ % 90001 = 0
    ∧ getAction [] ⟨0, 0, 0⟩ (90001/100000) (1/2) = STAY
    ∧ getAction [([0, 0, 0, 1], 5)] ⟨0, 0, 0⟩ (90001/100000) (1/2) = STAY := by
  have hfire : ⌈(90001/100000 : ℚ) * 100000⌉ % 90001 = 0 := by
    rw [show (90001/100000 : ℚ) * 100000 = ((90001 : ℤ) : ℚ) by norm_num,
      Int.ceil_intCast]
    decide
  have hmod : ¬ jsFmod ((1/2 : ℚ) * 100) 4 = 0 := by
    rw [jsFmod, jsTrunc, if_pos (by norm_num : (0:ℚ) ≤ (1/2 : ℚ) * 100 / 4),
      show ((1/2 : ℚ) * 100 / 4) = 25/2 by norm_num,
      show ⌊(25/2 : ℚ)⌋ = 12 by rw [Int.floor_eq_iff]; norm_num]
    norm_num
  have h1 : getAction [] ⟨0, 0, 0⟩ (90001/100000) (1/2) = STAY := by
    rw [(c3_exploration_amended.2.2.2.2 [] ⟨0, 0, 0⟩ (90001/100000) (1/2) hfire),
      if_neg hmod]
  refine ⟨hfire, h1, ?_⟩
  rw [c3_exploration_amended.2.2.2.1 [([0, 0, 0, 1], 5)] [] ⟨0, 0, 0⟩ ⟨0, 0, 0⟩
    (90001/100000) (1/2) hfire]
  exact h1

/-- Claim C5: when the exploration override does not fire, the strictly
greater estimate wins deterministically, an exact tie falls to the biased
random break that jumps exactly when `Math.ceil(r2 * 100) % 25 == 0`, and
that break jumps with probability `1/25` and stays with probability
`24/25`. -/
theorem c5_greedy_and_tie (tbl : QTable) (s : BirdState) (r1 r2 : ℚ)
    (hexp : ¬ ⌈r1 * 100000⌉ % 90001 = 0) :
    (getQ tbl s STAY > getQ tbl s JUMP → getAction tbl s r1 r2 = STAY)
    ∧ (getQ tbl s JUMP > getQ tbl s STAY → getAction tbl s r1 r2 = JUMP)
    ∧ (getQ tbl s STAY = getQ tbl s JUMP →
        getAction tbl s r1 r2 = (if ⌈r2 * 100⌉ % 25 = 0 then JUMP else STAY))
    ∧ MeasureTheory.volume tieJumpSet = ENNReal.ofReal (1/25)
    ∧ MeasureTheory.volume tieStaySet = ENNReal.ofReal (24/25) := by
  refine ⟨?_, ?_, ?_, volume_tieJumpSet, volume_tieStaySet⟩
  · intro hgt
    simp [getAction, hexp, hgt]
  · intro hgt
    simp [getAction, hexp, hgt, not_lt.mpr hgt.le, asymm hgt]
  · intro heq
    simp [getAction, hexp, heq]

/-- Witness for C5: with `r1 = 1/2` the override does not fire; on an
unvisited state the tie break with `r2 = 1/2` jumps (`⌈50⌉ % 25 = 0`), and
with a positive stay estimate the greedy branch stays. -/
theorem c5_greedy_and_tie_witness :
    ¬ ⌈(1/2 : ℚ) * 100000⌉ % 90001 = 0
    ∧ getAction [] ⟨0, 0, 0⟩ (1/2) (1/2) = JUMP
    ∧ getAction [([0, 0, 0, 0], 1)] ⟨0, 0, 0⟩ (1/2) (1/2) = STAY := by
  have hexp : ¬ ⌈(1/2 : ℚ) * 100000⌉ % 90001 = 0 := by
    rw [show (1/2 : ℚ) * 100000 = ((50000 : ℤ) : ℚ) by norm_num, Int.ceil_intCast]
    decide
  have htie : ⌈(1/2 : ℚ) * 100⌉ % 25 = 0 := by
    rw [show (1/2 : ℚ) * 100 = ((50 : ℤ) : ℚ) by norm_num, Int.ceil_intCast]
    decide
  refine ⟨hexp, ?_, ?_⟩
  · rw [(c5_greedy_and_tie [] ⟨0, 0, 0⟩ (1/2) (1/2) hexp).2.2.1 (by rfl), if_pos htie]
  · refine (c5_greedy_and_tie [([0, 0, 0, 0], 1)] ⟨0, 0, 0⟩ (1/2) (1/2) hexp).1 ?_
    norm_num [getQ, lookupQ, keyOf, STAY, JUMP]

end FlappyQ
